import Mathlib

/-!
Verification of the execution-context propagation core of PythonTurelUtils.

The definitions below are a shallow embedding of the Python source:
  - src/pipeline/log_helper.py (OurRitualContext: the Context Store and the
    header codec to_list / to_header / from_header),
  - src/pipeline/pipeline_utils.py (wrap_message_callback and
    SessionInformation.add_to_context),
  - src/pipeline/temporal_utils/context_propagator.py (the workflow-engine
    outbound merge and the inbound context restore).
Python dictionaries are modelled as insertion-ordered association lists with
unique keys, Python scalars as the inductive PyVal, and the CPython runtime
behaviour of base64.urlsafe_b64decode / urlsafe_b64encode, str.strip, UTF-8
encode/decode and the two re.match patterns of from_header is reproduced
bit-for-bit by executable functions.
-/

/-- A Python scalar value as stored in the custom-info dictionary of
OurRitualContext: None, a string, or an int.  (str() of each is pyStr.) -/
inductive PyVal where
  | vNone : PyVal
  | vStr : String → PyVal
  | vInt : Int → PyVal
deriving DecidableEq, Repr

/-- Python str() on the modelled scalars. -/
def pyStr : PyVal → String
  | PyVal.vNone => "None"
  | PyVal.vStr s => s
  | PyVal.vInt n => toString n

/-- The state held by the two context variables of OurRitualContext
(log_helper.py lines 21-22): the topic and the custom-info dictionary,
each defaulting to None. -/
structure Ctx where
  topic : Option String
  custom : Option (List (String × PyVal))
deriving DecidableEq, Repr

/-- The default state: both context variables are None. -/
def emptyCtx : Ctx := { topic := Option.none, custom := Option.none }

/-- Python dict lookup d[k] (as Option). -/
def dictGet {α : Type} : List (String × α) → String → Option α
  | [], _ => Option.none
  | (k', v) :: rest, k => if k' = k then some v else dictGet rest k

/-- Python dict assignment d[k] = v: updates an existing key in place,
appends a missing key at the end (insertion order preserved). -/
def dictSet {α : Type} : List (String × α) → String → α → List (String × α)
  | [], k, v => [(k, v)]
  | (k', v') :: rest, k, v =>
    if k' = k then (k, v) :: rest else (k', v') :: dictSet rest k v

/-- Python dict.update(e): assign every entry of e into d in order. -/
def dictUpdate {α : Type} (d e : List (String × α)) : List (String × α) :=
  e.foldl (fun acc kv => dictSet acc kv.1 kv.2) d

/-- The whitespace characters str.strip() and the regex class backslash-s
remove in the inputs this development quantifies over (the ASCII set). -/
def pySpace (c : Char) : Bool :=
  c = ' ' ∨ c = '\t' ∨ c = '\n' ∨ c = '\x0d' ∨ c = '\x0b' ∨ c = '\x0c'

/-- Python str.strip(): drop leading and trailing whitespace. -/
def pyStrip (s : String) : String :=
  String.mk ((s.data.dropWhile pySpace).reverse.dropWhile pySpace).reverse

/-- The base64url alphabet (RFC 4648 section 5), digit value to character:
what base64.urlsafe_b64encode emits. -/
def b64Char (n : Nat) : Char :=
  if n < 26 then Char.ofNat (65 + n)
  else if n < 52 then Char.ofNat (97 + (n - 26))
  else if n < 62 then Char.ofNat (48 + (n - 52))
  else if n = 62 then Char.ofNat 45
  else Char.ofNat 95

/-- Character to base64 digit value for decoding.  urlsafe_b64decode first
translates the dash to plus and the underscore to slash, then decodes with
the standard alphabet, so both spellings of 62 and 63 are accepted. -/
def b64Val (c : Char) : Option Nat :=
  if 'A' ≤ c ∧ c ≤ 'Z' then some (c.toNat - 65)
  else if 'a' ≤ c ∧ c ≤ 'z' then some (26 + (c.toNat - 97))
  else if '0' ≤ c ∧ c ≤ '9' then some (52 + (c.toNat - 48))
  else if c = '+' ∨ c = '-' then some 62
  else if c = '/' ∨ c = '_' then some 63
  else Option.none

/-- base64.urlsafe_b64encode on a byte list: three-byte groups become four
characters; a trailing group of two or one bytes is padded with one or two
equals signs. -/
def b64urlEncode : List Nat → List Char
  | b1 :: b2 :: b3 :: rest =>
    b64Char (b1 / 4) :: b64Char ((b1 % 4) * 16 + b2 / 16) ::
    b64Char ((b2 % 16) * 4 + b3 / 64) :: b64Char (b3 % 64) :: b64urlEncode rest
  | [b1, b2] =>
    [b64Char (b1 / 4), b64Char ((b1 % 4) * 16 + b2 / 16),
     b64Char ((b2 % 16) * 4), '=']
  | [b1] => [b64Char (b1 / 4), b64Char ((b1 % 4) * 16), '=', '=']
  | [] => []

/-- One step state of CPython binascii.a2b_base64 in non-strict mode:
position in the current four-character group, the carried bits, and the
number of padding characters seen since the last data character. -/
structure B64State where
  quadPos : Nat
  leftchar : Nat
  pads : Nat

/-- CPython binascii.a2b_base64, non-strict mode (what base64.b64decode
calls): invalid characters are skipped; an equals sign is ignored at group
position zero or one, and at position two or three it counts as padding —
once position plus padding reaches four, decoding stops successfully;
leftover group positions two or three at the end raise (here: none), as
does position one. -/
def a2bBase64Run : B64State → List Nat → List Char → Option (List Nat)
  | st, acc, [] => if st.quadPos = 0 then some acc.reverse else Option.none
  | st, acc, c :: rest =>
    if c = '=' then
      if 2 ≤ st.quadPos then
        if 4 ≤ st.quadPos + (st.pads + 1) then some acc.reverse
        else a2bBase64Run { st with pads := st.pads + 1 } acc rest
      else a2bBase64Run st acc rest
    else
      match b64Val c with
      | Option.none => a2bBase64Run st acc rest
      | some v =>
        match st.quadPos with
        | 0 => a2bBase64Run { quadPos := 1, leftchar := v, pads := 0 } acc rest
        | 1 => a2bBase64Run { quadPos := 2, leftchar := v % 16, pads := 0 }
            ((st.leftchar * 4 + v / 16) :: acc) rest
        | 2 => a2bBase64Run { quadPos := 3, leftchar := v % 4, pads := 0 }
            ((st.leftchar * 16 + v / 4) :: acc) rest
        | _ => a2bBase64Run { quadPos := 0, leftchar := 0, pads := 0 }
            ((st.leftchar * 64 + v) :: acc) rest

/-- base64.urlsafe_b64decode on a character list (already known ASCII). -/
def a2bBase64 (cs : List Char) : Option (List Nat) :=
  a2bBase64Run { quadPos := 0, leftchar := 0, pads := 0 } [] cs

/-- UTF-8 encoding of one unicode scalar value (Python str.encode). -/
def utf8EncodeChar (c : Char) : List Nat :=
  let n := c.toNat
  if n < 0x80 then [n]
  else if n < 0x800 then [0xC0 + n / 64, 0x80 + n % 64]
  else if n < 0x10000 then
    [0xE0 + n / 4096, 0x80 + (n / 64) % 64, 0x80 + n % 64]
  else
    [0xF0 + n / 262144, 0x80 + (n / 4096) % 64, 0x80 + (n / 64) % 64,
     0x80 + n % 64]

/-- Python str.encode("utf-8"). -/
def utf8Encode (s : String) : List Nat :=
  s.data.flatMap utf8EncodeChar

/-- Is b a UTF-8 continuation byte in the closed range given. -/
def contIn (lo hi b : Nat) : Bool := lo ≤ b ∧ b ≤ hi

/-- Python bytes.decode("utf-8"), strict: rejects truncated sequences,
overlong encodings, surrogates and code points beyond 0x10FFFF. -/
def utf8Decode : List Nat → Option (List Char)
  | [] => some []
  | b :: rest =>
    if b < 0x80 then
      (utf8Decode rest).map (fun cs => Char.ofNat b :: cs)
    else if 0xC2 ≤ b ∧ b ≤ 0xDF then
      match rest with
      | b2 :: rest2 =>
        if contIn 0x80 0xBF b2 then
          (utf8Decode rest2).map
            (fun cs => Char.ofNat ((b - 0xC0) * 64 + (b2 - 0x80)) :: cs)
        else Option.none
      | [] => Option.none
    else if 0xE0 ≤ b ∧ b ≤ 0xEF then
      match rest with
      | b2 :: b3 :: rest3 =>
        let lo := if b = 0xE0 then 0xA0 else 0x80
        let hi := if b = 0xED then 0x9F else 0xBF
        if contIn lo hi b2 ∧ contIn 0x80 0xBF b3 then
          (utf8Decode rest3).map
            (fun cs =>
              Char.ofNat ((b - 0xE0) * 4096 + (b2 - 0x80) * 64 + (b3 - 0x80)) :: cs)
        else Option.none
      | _ => Option.none
    else if 0xF0 ≤ b ∧ b ≤ 0xF4 then
      match rest with
      | b2 :: b3 :: b4 :: rest4 =>
        let lo := if b = 0xF0 then 0x90 else 0x80
        let hi := if b = 0xF4 then 0x8F else 0xBF
        if contIn lo hi b2 ∧ contIn 0x80 0xBF b3 ∧ contIn 0x80 0xBF b4 then
          (utf8Decode rest4).map
            (fun cs =>
              Char.ofNat ((b - 0xF0) * 262144 + (b2 - 0x80) * 4096 +
                (b3 - 0x80) * 64 + (b4 - 0x80)) :: cs)
        else Option.none
      | _ => Option.none
    else Option.none

/-- The whole transport decode of from_header line 134-135: encode the
header to ASCII (fails on any character above 127), base64url-decode, then
UTF-8-decode the bytes.  None models the exception path. -/
def pyB64UrlDecodeToStr (h : String) : Option String :=
  if h.data.any (fun c => 128 ≤ c.toNat) then Option.none
  else
    match a2bBase64 h.data with
    | Option.none => Option.none
    | some bytes => (utf8Decode bytes).map String.mk

/-! ## The Context Store operations (log_helper.py, class OurRitualContext) -/

/-- OurRitualContext.set_topic_info (lines 24-31): replace the topic. -/
def set_topic_info (s : Ctx) (t : Option String) : Ctx :=
  { s with topic := t }

/-- OurRitualContext.set_custom_info (lines 33-48): read the custom dict
(an empty one when it is None), assign key := value, store it back. -/
def set_custom_info (s : Ctx) (k : String) (v : PyVal) : Ctx :=
  { s with custom := some (dictSet (s.custom.getD []) k v) }

/-- The loop body of to_list (lines 92-94): assign the namespaced
stringified value unless the value is None. -/
def custStep (acc : List (String × String)) (kv : String × PyVal) :
    List (String × String) :=
  if kv.2 ≠ PyVal.vNone then dictSet acc ("ourritual/" ++ kv.1) (pyStr kv.2)
  else acc

/-- OurRitualContext.to_list (lines 80-96): the namespaced string map —
the topic under the reserved key, then every custom entry whose value is
not None under the root prefix, stringified, in insertion order. -/
def to_list (s : Ctx) : List (String × String) :=
  let r : List (String × String) :=
    match s.topic with
    | some t => [("ourritual/topic/name", t)]
    | Option.none => []
  match s.custom with
  | Option.none => r
  | some cs => cs.foldl custStep r

/-- OurRitualContext.to_header (lines 98-115): render every entry of
to_list as key colon space quoted value, join with newlines, UTF-8 encode
and base64url encode.  The empty map gives the empty string. -/
def to_header (s : Ctx) : String :=
  let d := to_list s
  if d = [] then ""
  else
    let lines := d.map (fun kv => kv.1 ++ ": \"" ++ kv.2 ++ "\"")
    String.mk (b64urlEncode (utf8Encode (String.intercalate "\n" lines)))

/-! ## The from_header line parser (log_helper.py lines 144-174)

The two Python regular expressions are reproduced as executable prefix
matchers with the exact re.match semantics traced from CPython:
greedy character classes cannot cross their excluded character, the lazy
dot group tries the shortest split first, and trailing text after the
closing quote is accepted. -/

/-- The common tail of both patterns, colon backslash-s star quote
bracket-caret-quote star quote: a colon, any whitespace run, then a quoted
value read up to the first closing quote (which must exist); anything
after it is ignored.  Returns the value group. -/
def matchColonQuote : List Char → Option (List Char)
  | ':' :: rest =>
    match rest.dropWhile pySpace with
    | '"' :: r3 =>
      let v := r3.takeWhile (fun c => c ≠ '"')
      if r3.dropWhile (fun c => c ≠ '"') = [] then Option.none else some v
    | _ => Option.none
  | _ => Option.none

/-- The lazy group dot plus question of the sectioned pattern followed by
the colon-quote tail: try the shortest non-empty key first; the dot never
matches a newline, so reaching one fails every longer split as well. -/
def lazyKeyQuote (acc : List Char) : List Char → Option (List Char × List Char)
  | [] => Option.none
  | c :: rest =>
    if c = '\n' then Option.none
    else
      match matchColonQuote rest with
      | some v => some ((acc ++ [c]), v)
      | Option.none => lazyKeyQuote (acc ++ [c]) rest

/-- re.match of the sectioned pattern (line 145): root slash, a non-empty
run without slashes (group 1, greedy), a slash, the lazy key path (group
2), then the quoted value (group 3). -/
def matchSection (l : List Char) : Option (String × String × String) :=
  match l with
  | 'o' :: 'u' :: 'r' :: 'r' :: 'i' :: 't' :: 'u' :: 'a' :: 'l' :: '/' :: rest =>
    let sec := rest.takeWhile (fun c => c ≠ '/')
    if sec = [] then Option.none
    else
      match rest.dropWhile (fun c => c ≠ '/') with
      | '/' :: tail =>
        (lazyKeyQuote [] tail).map
          (fun kv => (String.mk sec, String.mk kv.1, String.mk kv.2))
      | _ => Option.none
  | _ => Option.none

/-- re.match of the direct pattern (line 146): root slash, a non-empty run
without colons (group 1, greedy), then the quoted value (group 2). -/
def matchDirect (l : List Char) : Option (String × String) :=
  match l with
  | 'o' :: 'u' :: 'r' :: 'r' :: 'i' :: 't' :: 'u' :: 'a' :: 'l' :: '/' :: rest =>
    let key := rest.takeWhile (fun c => c ≠ ':')
    if key = [] then Option.none
    else
      (matchColonQuote (rest.dropWhile (fun c => c ≠ ':'))).map
        (fun v => (String.mk key, String.mk v))
  | _ => Option.none

/-- One iteration of the line loop of from_header (lines 148-174) over the
pair (topic_data, custom_data): blank lines are skipped; a sectioned match
records the value as the topic only for section topic and path name and
otherwise consumes the line; a direct match upserts into custom_data
unless its key is the reserved literal topic. -/
def parseLine (acc : Option String × List (String × PyVal)) (line : String) :
    Option String × List (String × PyVal) :=
  let l := pyStrip line
  if l = "" then acc
  else
    match matchSection l.data with
    | some svv =>
      if svv.1 = "topic" ∧ svv.2.1 = "name" then (some svv.2.2, acc.2) else acc
    | Option.none =>
      match matchDirect l.data with
      | some kv =>
        if kv.1 ≠ "topic" then (acc.1, dictSet acc.2 kv.1 (PyVal.vStr kv.2))
        else acc
      | Option.none => acc

/-- Python str.split on a newline, on the decomposed string: the list of
segments between newline characters (one empty segment for the empty
string, matching the Python behaviour). -/
def splitNl : List Char → List (List Char)
  | [] => [[]]
  | c :: rest =>
    if c = '\n' then [] :: splitNl rest
    else
      match splitNl rest with
      | [] => [[c]]
      | l :: ls => (c :: l) :: ls

/-- The whole parse of the decoded header text: split on newlines and fold
the line loop from (None, empty dict). -/
def parseHeaderText (decoded : String) : Option String × List (String × PyVal) :=
  ((splitNl decoded.data).map String.mk).foldl parseLine (Option.none, [])

/-- OurRitualContext.from_header (lines 117-183): return the context
unchanged on empty or blank input and on any transport-decode failure;
otherwise parse the lines, install the topic only when one was parsed and
replace the whole custom dict only when custom_data is non-empty. -/
def from_header (header : String) (s : Ctx) : Ctx :=
  if pyStrip header = "" then s
  else
    match pyB64UrlDecodeToStr header with
    | Option.none => s
    | some decoded =>
      let pr := parseHeaderText decoded
      let s1 :=
        match pr.1 with
        | some t => set_topic_info s (some t)
        | Option.none => s
      match pr.2 with
      | [] => s1
      | cd => { s1 with custom := some cd }

/-! ## Transport adapters -/

/-- Does the character list p occur as a prefix of the second list
(Python str.startswith on the decomposed strings). -/
def startsWithL : List Char → List Char → Bool
  | [], _ => true
  | _ :: _, [] => false
  | p :: ps, c :: cs => if p = c then startsWithL ps cs else false

/-- Python slicing s[n:]. -/
def strDropL (s : String) (n : Nat) : String := String.mk (s.data.drop n)

/-- Modelled from the spec: the message-attribute key OURRITUAL_CONTEXT_HEADER
is imported from const.py, a module of this repository that is not among the
staged sources; section 6 of the spec fixes the literal string that names the
encoded context blob. -/
def OURRITUAL_CONTEXT_HEADER : String := "ourritual-context"

/-- context_propagator.py line 76: the header key for context propagation. -/
def CONTEXT_HEADER_KEY : String := "ourritual-context"

/-- The outcome of the user-supplied message handler: a return value or a
raised exception. -/
inductive Outcome (α : Type) where
  | ok (v : α)
  | exc (e : String)
deriving DecidableEq, Repr

/-- The wrapped callback built by wrap_message_callback (pipeline_utils.py
lines 312-363), projected onto its effect on the Context Store and the
handler outcome.  The message attributes are read for the context header;
a non-empty value is installed with from_header; the handler then runs
under the current store; with a tracer an exception is recorded on the
span and re-raised, without one the handler result is returned directly.
No path resets the Context Store. -/
def wrapped_callback {α : Type} (tracerSet : Bool)
    (attrs : List (String × String)) (f : Ctx → Ctx × Outcome α) (s : Ctx) :
    Ctx × Outcome α :=
  let ritualContext := (dictGet attrs OURRITUAL_CONTEXT_HEADER).getD ""
  let s1 := if ritualContext ≠ "" then from_header ritualContext s else s
  if tracerSet then
    match f s1 with
    | (s2, Outcome.ok v) => (s2, Outcome.ok v)
    | (s2, Outcome.exc e) => (s2, Outcome.exc e)
  else f s1

/-- A workflow-engine header payload: the PayloadConverter carries the
to_list dictionary, so the payload is modelled as that dictionary. -/
abbrev Payload := List (String × String)

/-- ContextWorkflowOutboundInterceptor._get_context_headers (lines
217-233): the current context as a singleton header map, or no header at
all when to_list is empty. -/
def get_context_headers (s : Ctx) : List (String × Payload) :=
  let d := to_list s
  if d ≠ [] then [(CONTEXT_HEADER_KEY, d)] else []

/-- ContextWorkflowOutboundInterceptor._merge_headers (lines 235-254):
copy the existing headers and update them with the context headers; with
no existing headers return the context headers alone. -/
def merge_headers (s : Ctx) (existing : List (String × Payload)) :
    List (String × Payload) :=
  let contextHeaders := get_context_headers s
  if existing ≠ [] then dictUpdate existing contextHeaders
  else if contextHeaders ≠ [] then contextHeaders else []

/-- start_activity (lines 256-262) passes on the input with its headers
replaced by the merge. -/
def start_activity_headers (s : Ctx) (h : List (String × Payload)) :
    List (String × Payload) := merge_headers s h

/-- start_local_activity (lines 264-270), identically. -/
def start_local_activity_headers (s : Ctx) (h : List (String × Payload)) :
    List (String × Payload) := merge_headers s h

/-- start_child_workflow (lines 272-278), identically. -/
def start_child_workflow_headers (s : Ctx) (h : List (String × Payload)) :
    List (String × Payload) := merge_headers s h

/-- ContextActivityInboundInterceptor._restore_context_from_dict (lines
152-166), identical to the workflow inbound copy (lines 290-304): the
reserved topic key sets the topic; every other key with the root prefix
except the literal ourritual/test sets custom info under the stripped
key; anything else is ignored. -/
def restoreStep (ctx : Ctx) (kv : String × String) : Ctx :=
  if kv.1 = "ourritual/topic/name" then set_topic_info ctx (some kv.2)
  else if startsWithL "ourritual/".data kv.1.data ∧ kv.1 ≠ "ourritual/test"
  then set_custom_info ctx (strDropL kv.1 10) (PyVal.vStr kv.2)
  else ctx

/-- The loop of _restore_context_from_dict over the decoded dictionary. -/
def restore_context_from_dict (d : List (String × String)) (s : Ctx) : Ctx :=
  d.foldl restoreStep s

/-- SessionInformation.add_to_context (pipeline_utils.py lines 214-221):
the four session entries and one id/email pair per member, all under keys
that themselves start with the root prefix. -/
def add_to_context (sessionId expertId expertEmail zoomMeetingId : PyVal)
    (members : List (PyVal × PyVal)) (s : Ctx) : Ctx :=
  let s4 :=
    set_custom_info
      (set_custom_info
        (set_custom_info
          (set_custom_info s "ourritual/session/id" sessionId)
          "ourritual/session/expert/id" expertId)
        "ourritual/session/expert/email" expertEmail)
      "ourritual/session/zoom_meeting_id" zoomMeetingId
  (members.enum).foldl
    (fun c pm =>
      set_custom_info
        (set_custom_info c ("ourritual/members/" ++ toString pm.1 ++ "/id") pm.2.1)
        ("ourritual/members/" ++ toString pm.1 ++ "/email") pm.2.2) s4

/-- The operations OurRitualContext offers that mutate the store: the
whole public mutating surface of the class (set_topic_info,
set_custom_info, from_header). -/
inductive COp where
  | opSetTopicInfo (t : Option String)
  | opSetCustomInfo (k : String) (v : PyVal)
  | opFromHeader (h : String)

/-- Apply one store operation. -/
def applyOp : COp → Ctx → Ctx
  | COp.opSetTopicInfo t, s => set_topic_info s t
  | COp.opSetCustomInfo k v, s => set_custom_info s k v
  | COp.opFromHeader h, s => from_header h s

/-- The store-installation prefix of the wrapped callback in isolation:
read the context attribute and install a non-empty value with from_header
(pipeline_utils.py lines 336-339). -/
def installCtx (attrs : List (String × String)) (s : Ctx) : Ctx :=
  let ritualContext := (dictGet attrs OURRITUAL_CONTEXT_HEADER).getD ""
  if ritualContext ≠ "" then from_header ritualContext s else s

/-- Remove the trailing equals-sign padding from an encoded header (the
operation the padding-free round-trip claim performs on the header). -/
def stripTrailingEq (s : String) : String :=
  String.mk ((s.data.reverse.dropWhile (fun c => c = '=')).reverse)

/-- The round-trip example context of the spec: topic t1 and custom
entries a maps-to 1 and b maps-to 2. -/
def ctxC1 : Ctx :=
  { topic := some "t1",
    custom := some [("a", PyVal.vStr "1"), ("b", PyVal.vStr "2")] }

/-- A context whose encoded header carries two padding characters (the
single line is sixteen bytes long). -/
def ctxC5 : Ctx := { topic := Option.none, custom := some [("a", PyVal.vStr "1")] }

/-- A context whose encoded header needs no padding (the single line is
eighteen bytes long, a multiple of three). -/
def ctxC5nopad : Ctx :=
  { topic := Option.none, custom := some [("a", PyVal.vStr "123")] }

/-- A state in which a custom entry collides with the reserved topic key:
custom key topic/name next to a set topic. -/
def ctxC6cex : Ctx :=
  { topic := some "t", custom := some [("topic/name", PyVal.vStr "x")] }

/-- A state exercising every clause of the to_map postcondition: a topic,
an int-valued entry and a None-valued entry. -/
def ctxC6wit : Ctx :=
  { topic := some "t",
    custom := some [("n", PyVal.vInt 123), ("z", PyVal.vNone)] }

/-- A state with both a topic and a non-empty custom map, from which no
single store operation reaches the empty state. -/
def ctxC7 : Ctx := { topic := some "t", custom := some [("a", PyVal.vStr "1")] }

/-- The context SessionInformation.add_to_context builds on top of a set
topic: four session entries and one member, every custom key itself
starting with the root prefix. -/
def ctxC9 : Ctx :=
  add_to_context (PyVal.vStr "42") (PyVal.vInt 7) (PyVal.vStr "e@x.com")
    (PyVal.vStr "99") [(PyVal.vInt 1, PyVal.vStr "m@x.com")]
    (set_topic_info emptyCtx (some "t1"))

/-- Message attributes carrying an encoded context with topic t1. -/
def attrsC3 : List (String × String) :=
  [(OURRITUAL_CONTEXT_HEADER,
    to_header { topic := some "t1", custom := Option.none })]

/-- A stale payload sitting under the context header key before a merge. -/
def stalePayload : Payload := [("ourritual/a", "stale")]

/-- Existing outgoing headers that already contain the context header key
next to an unrelated entry. -/
def existingC8 : List (String × Payload) :=
  [(CONTEXT_HEADER_KEY, stalePayload), ("other-key", [("x", "y")])]

/-- A decoded context-header dictionary carrying the reserved topic key,
the reserved ourritual/test key, one ordinary custom entry and one
foreign entry. -/
def dC10 : List (String × String) :=
  [("ourritual/topic/name", "t"), ("ourritual/test", "x"),
   ("ourritual/user", "u"), ("unrelated", "z")]

/-- A caller context with a non-empty snapshot for the outbound merge. -/
def ctxC8 : Ctx := { topic := some "t1", custom := Option.none }

/-! ## Dictionary and string lemmas -/

theorem dictGet_dictSet_self {α : Type} (d : List (String × α)) (k : String)
    (v : α) : dictGet (dictSet d k v) k = some v := by
  induction d with
  | nil => simp [dictSet, dictGet]
  | cons kv rest ih =>
    obtain ⟨k0, v0⟩ := kv
    by_cases h0 : k0 = k
    · simp [dictSet, h0, dictGet]
    · simp [dictSet, h0, dictGet, ih]

theorem dictGet_dictSet_ne {α : Type} (d : List (String × α)) (k k' : String)
    (v : α) (h : k' ≠ k) : dictGet (dictSet d k v) k' = dictGet d k' := by
  induction d with
  | nil => simp [dictSet, dictGet, Ne.symm h]
  | cons kv rest ih =>
    obtain ⟨k0, v0⟩ := kv
    by_cases h0 : k0 = k
    · subst h0
      simp [dictSet, dictGet, Ne.symm h]
    · simp [dictSet, h0, dictGet, ih]

theorem dictUpdate_single {α : Type} (d : List (String × α)) (k : String)
    (v : α) : dictUpdate d [(k, v)] = dictSet d k v := by
  simp [dictUpdate]

theorem nodupKeys_eq {α : Type} {l : List (String × α)}
    (h : (l.map Prod.fst).Nodup) {k : String} {a b : α}
    (ha : (k, a) ∈ l) (hb : (k, b) ∈ l) : a = b := by
  induction l with
  | nil => cases ha
  | cons kv rest ih =>
    rw [List.map_cons, List.nodup_cons] at h
    rcases List.mem_cons.mp ha with ha1 | ha2 <;>
      rcases List.mem_cons.mp hb with hb1 | hb2
    · rw [← ha1] at hb1
      exact ((Prod.mk.injEq k b k a).mp hb1).2.symm
    · exfalso
      apply h.1
      rw [← ha1]
      show k ∈ rest.map Prod.fst
      exact List.mem_map_of_mem Prod.fst hb2
    · exfalso
      apply h.1
      rw [← hb1]
      show k ∈ rest.map Prod.fst
      exact List.mem_map_of_mem Prod.fst ha2
    · exact ih h.2 ha2 hb2

theorem strData_inj {s t : String} (h : s.data = t.data) : s = t := by
  cases s; cases t; exact congrArg String.mk h

theorem strAppend_cancel_left {s a b : String} (h : s ++ a = s ++ b) :
    a = b := by
  apply strData_inj
  have h2 := congrArg String.data h
  rw [String.data_append, String.data_append] at h2
  exact List.append_cancel_left h2

theorem startsWithL_spec :
    ∀ (p l : List Char), startsWithL p l = true → l = p ++ l.drop p.length := by
  intro p
  induction p with
  | nil => intro l _; simp
  | cons c ps ih =>
    intro l h
    cases l with
    | nil => simp [startsWithL] at h
    | cons c0 rest =>
      by_cases hc : c = c0
      · subst hc
        have := ih rest (by simpa [startsWithL] using h)
        simpa using this
      · simp [startsWithL, hc] at h

theorem startsWithL_append (p l : List Char) :
    startsWithL p (p ++ l) = true := by
  induction p with
  | nil => rfl
  | cons c ps ih => simpa [startsWithL] using ih

theorem ourritual_decomp (s : String)
    (h : startsWithL "ourritual/".data s.data = true) :
    s = "ourritual/" ++ strDropL s 10 := by
  apply strData_inj
  rw [String.data_append]
  exact startsWithL_spec "ourritual/".data s.data h

theorem strDropL_ourritual (k : String) :
    strDropL ("ourritual/" ++ k) 10 = k := by
  apply strData_inj
  show (("ourritual/" ++ k).data.drop 10) = k.data
  rw [String.data_append]
  exact List.drop_left "ourritual/".data k.data

/-! ## Lemmas about the to_list fold -/

theorem custFold_preserve (cs : List (String × PyVal)) :
    ∀ (acc : List (String × String)) (key : String),
    (∀ p ∈ cs, p.2 ≠ PyVal.vNone → "ourritual/" ++ p.1 ≠ key) →
    dictGet (cs.foldl custStep acc) key = dictGet acc key := by
  induction cs with
  | nil => intro acc key _; rfl
  | cons kv rest ih =>
    intro acc key h
    rw [List.foldl_cons]
    rw [ih _ key (fun p hp => h p (List.mem_cons_of_mem _ hp))]
    by_cases hv : kv.2 = PyVal.vNone
    · simp [custStep, hv]
    · rw [custStep, if_pos hv]
      exact dictGet_dictSet_ne _ _ _ _
        (Ne.symm (h kv (List.mem_cons_self _ _) hv))

theorem custFold_hit (cs : List (String × PyVal)) :
    ∀ (acc : List (String × String)) (k : String) (v : PyVal),
    (cs.map Prod.fst).Nodup → (k, v) ∈ cs → v ≠ PyVal.vNone →
    dictGet (cs.foldl custStep acc) ("ourritual/" ++ k) = some (pyStr v) := by
  induction cs with
  | nil => intro _ _ _ _ hmem _; cases hmem
  | cons kv rest ih =>
    intro acc k v hnd hmem hv
    rw [List.map_cons, List.nodup_cons] at hnd
    rw [List.foldl_cons]
    rcases List.mem_cons.mp hmem with heq | hmem2
    · rw [← heq] at hnd ⊢
      rw [custFold_preserve rest _ _ ?_]
      · rw [custStep, if_pos hv]
        exact dictGet_dictSet_self _ _ _
      · intro p hp _ hkey
        apply hnd.1
        show k ∈ rest.map Prod.fst
        have : p.1 = k := strAppend_cancel_left hkey
        rw [← this]
        exact List.mem_map_of_mem Prod.fst hp
    · exact ih _ k v hnd.2 hmem2 hv

/-! ## Lemmas about the inbound restore fold -/

theorem restoreStep_topic_ne (ctx : Ctx) (kv : String × String)
    (h : kv.1 ≠ "ourritual/topic/name") :
    (restoreStep ctx kv).topic = ctx.topic := by
  rw [restoreStep, if_neg h]
  by_cases h2 : startsWithL "ourritual/".data kv.1.data = true ∧
      kv.1 ≠ "ourritual/test"
  · rw [if_pos h2]; rfl
  · rw [if_neg h2]

theorem restoreStep_custom_ne (ctx : Ctx) (kv : String × String) (k : String)
    (h : kv.1 ≠ "ourritual/" ++ k) :
    dictGet ((restoreStep ctx kv).custom.getD []) k =
      dictGet (ctx.custom.getD []) k := by
  rw [restoreStep]
  by_cases h1 : kv.1 = "ourritual/topic/name"
  · rw [if_pos h1]; rfl
  · rw [if_neg h1]
    by_cases h2 : startsWithL "ourritual/".data kv.1.data = true ∧
        kv.1 ≠ "ourritual/test"
    · rw [if_pos h2]
      show dictGet (dictSet (ctx.custom.getD []) (strDropL kv.1 10) _) k = _
      refine dictGet_dictSet_ne _ _ _ _ (fun he => h ?_)
      rw [ourritual_decomp kv.1 h2.1, he]
    · rw [if_neg h2]

theorem restoreFold_topic_preserve (d : List (String × String)) :
    ∀ (ctx : Ctx), (∀ p ∈ d, p.1 ≠ "ourritual/topic/name") →
    (d.foldl restoreStep ctx).topic = ctx.topic := by
  induction d with
  | nil => intro ctx _; rfl
  | cons kv rest ih =>
    intro ctx h
    rw [List.foldl_cons,
      ih _ (fun p hp => h p (List.mem_cons_of_mem _ hp)),
      restoreStep_topic_ne ctx kv (h kv (List.mem_cons_self _ _))]

theorem restoreFold_custom_preserve (d : List (String × String)) :
    ∀ (ctx : Ctx) (k : String), (∀ p ∈ d, p.1 ≠ "ourritual/" ++ k) →
    dictGet ((d.foldl restoreStep ctx).custom.getD []) k =
      dictGet (ctx.custom.getD []) k := by
  induction d with
  | nil => intro ctx k _; rfl
  | cons kv rest ih =>
    intro ctx k h
    rw [List.foldl_cons,
      ih _ k (fun p hp => h p (List.mem_cons_of_mem _ hp)),
      restoreStep_custom_ne ctx kv k (h kv (List.mem_cons_self _ _))]

theorem restoreFold_topic_hit (d : List (String × String)) :
    ∀ (ctx : Ctx) (v : String), (d.map Prod.fst).Nodup →
    ("ourritual/topic/name", v) ∈ d →
    (d.foldl restoreStep ctx).topic = some v := by
  induction d with
  | nil => intro _ _ _ hmem; cases hmem
  | cons kv rest ih =>
    intro ctx v hnd hmem
    rw [List.map_cons, List.nodup_cons] at hnd
    rw [List.foldl_cons]
    rcases List.mem_cons.mp hmem with heq | hmem2
    · rw [← heq] at hnd ⊢
      rw [restoreFold_topic_preserve rest _ ?_]
      · rw [restoreStep, if_pos rfl]; rfl
      · intro p hp hkey
        apply hnd.1
        rw [← hkey]
        show p.1 ∈ rest.map Prod.fst
        exact List.mem_map_of_mem Prod.fst hp
    · exact ih _ v hnd.2 hmem2

theorem restoreFold_custom_hit (d : List (String × String)) :
    ∀ (ctx : Ctx) (k v : String), (d.map Prod.fst).Nodup →
    ("ourritual/" ++ k, v) ∈ d → k ≠ "test" → k ≠ "topic/name" →
    dictGet ((d.foldl restoreStep ctx).custom.getD []) k =
      some (PyVal.vStr v) := by
  induction d with
  | nil => intro _ _ _ _ hmem _ _; cases hmem
  | cons kv rest ih =>
    intro ctx k v hnd hmem htest htopic
    rw [List.map_cons, List.nodup_cons] at hnd
    rw [List.foldl_cons]
    rcases List.mem_cons.mp hmem with heq | hmem2
    · rw [← heq] at hnd ⊢
      rw [restoreFold_custom_preserve rest _ k ?_]
      · rw [restoreStep,
          if_neg (fun he : "ourritual/" ++ k = "ourritual/topic/name" =>
            htopic (strAppend_cancel_left he)),
          if_pos ⟨by rw [String.data_append]; exact startsWithL_append _ _,
            fun he : "ourritual/" ++ k = "ourritual/test" =>
              htest (strAppend_cancel_left he)⟩]
        show dictGet (dictSet (ctx.custom.getD [])
          (strDropL ("ourritual/" ++ k) 10) _) k = _
        rw [strDropL_ourritual]
        exact dictGet_dictSet_self _ _ _
      · intro p hp hkey
        apply hnd.1
        rw [← hkey]
        show p.1 ∈ rest.map Prod.fst
        exact List.mem_map_of_mem Prod.fst hp
    · exact ih _ k v hnd.2 hmem2 htest htopic

theorem restoreFold_custom_test (d : List (String × String)) :
    ∀ (ctx : Ctx),
    dictGet ((d.foldl restoreStep ctx).custom.getD []) "test" =
      dictGet (ctx.custom.getD []) "test" := by
  induction d with
  | nil => intro ctx; rfl
  | cons kv rest ih =>
    intro ctx
    rw [List.foldl_cons, ih]
    rw [restoreStep]
    by_cases h1 : kv.1 = "ourritual/topic/name"
    · rw [if_pos h1]; rfl
    · rw [if_neg h1]
      by_cases h2 : startsWithL "ourritual/".data kv.1.data = true ∧
          kv.1 ≠ "ourritual/test"
      · rw [if_pos h2]
        show dictGet (dictSet (ctx.custom.getD []) (strDropL kv.1 10) _)
          "test" = _
        refine dictGet_dictSet_ne _ _ _ _ (fun he => h2.2 ?_)
        rw [ourritual_decomp kv.1 h2.1, ← he]
        rfl
      · rw [if_neg h2]

/-! ## Lemmas about from_header and the outbound merge -/

theorem from_header_topic_some (h : String) (s : Ctx) (t : String)
    (ht : s.topic = some t) : ∃ u, (from_header h s).topic = some u := by
  rw [from_header]
  by_cases h1 : pyStrip h = ""
  · rw [if_pos h1]; exact ⟨t, ht⟩
  · rw [if_neg h1]
    cases hdec : pyB64UrlDecodeToStr h with
    | none => exact ⟨t, ht⟩
    | some decoded =>
      cases hpt : (parseHeaderText decoded).1 with
      | none =>
        cases hpc : (parseHeaderText decoded).2 with
        | nil => simp only [hpt, hpc]; exact ⟨t, ht⟩
        | cons c cd => simp only [hpt, hpc]; exact ⟨t, ht⟩
      | some u =>
        cases hpc : (parseHeaderText decoded).2 with
        | nil => simp only [hpt, hpc]; exact ⟨u, rfl⟩
        | cons c cd => simp only [hpt, hpc]; exact ⟨u, rfl⟩

theorem merge_headers_spec (s : Ctx) (existing : List (String × Payload))
    (hne : to_list s ≠ []) :
    dictGet (merge_headers s existing) CONTEXT_HEADER_KEY = some (to_list s)
    ∧ ∀ k, k ≠ CONTEXT_HEADER_KEY →
        dictGet (merge_headers s existing) k = dictGet existing k := by
  rw [merge_headers, get_context_headers]
  rw [if_pos hne]
  by_cases hex : existing = []
  · subst hex
    rw [if_neg (by simp)]
    rw [if_pos (by simp)]
    constructor
    · simp [dictGet]
    · intro k hk
      simp [dictGet, Ne.symm hk]
  · rw [if_pos hex, dictUpdate_single]
    exact ⟨dictGet_dictSet_self _ _ _,
      fun k hk => dictGet_dictSet_ne _ _ _ _ hk⟩

/-! ## The claims -/

set_option maxRecDepth 40000

/-- C1: Codec round trip — for the context with topic t1 and custom map
a maps-to 1, b maps-to 2, encoding with to_header, decoding that string
with from_header into a fresh context and encoding again yields a string
equal to the first encoding. -/
theorem C1_roundtrip_encode_decode_encode :
    to_header (from_header (to_header ctxC1) emptyCtx) = to_header ctxC1 := by
  decide

/-- C4: Decode totality and failure semantics — from_header is a total
function of the embedding (it never raises); on empty or blank input and
on any transport-decode failure (base64 or the subsequent UTF-8 step,
both folded into pyB64UrlDecodeToStr) it leaves a fresh context empty;
in particular the input not-valid-base64!!! yields an empty context. -/
theorem C4_decode_totality :
    (∀ h : String, pyStrip h = "" → from_header h emptyCtx = emptyCtx)
    ∧ (∀ h : String, pyB64UrlDecodeToStr h = Option.none →
        from_header h emptyCtx = emptyCtx)
    ∧ from_header "not-valid-base64!!!" emptyCtx = emptyCtx := by
  refine ⟨fun h h1 => ?_, fun h h2 => ?_, by decide⟩
  · rw [from_header, if_pos h1]
  · rw [from_header]
    by_cases h1 : pyStrip h = ""
    · rw [if_pos h1]
    · rw [if_neg h1, h2]

/-- C5 (amended): padding is required on decode — for the context with
custom a maps-to 1 the encoded header carries padding, and removing the
trailing equals signs makes the base64 decode fail, so from_header
returns the fresh context unchanged (empty) instead of the original
context; only a header that needs no padding in the first place (encoded
text length a multiple of three, as for a maps-to 123) round-trips after
the no-op strip. -/
theorem C5_padding_required :
    (stripTrailingEq (to_header ctxC5) ≠ to_header ctxC5
      ∧ pyB64UrlDecodeToStr (stripTrailingEq (to_header ctxC5)) = Option.none
      ∧ from_header (stripTrailingEq (to_header ctxC5)) emptyCtx = emptyCtx)
    ∧ stripTrailingEq (to_header ctxC5nopad) = to_header ctxC5nopad
    ∧ from_header (to_header ctxC5nopad) emptyCtx = ctxC5nopad := by
  decide

/-- C5 counterexample: for the context with custom a maps-to 1 (a
non-empty to_map), decoding the unpadded header does not give the same
context as decoding the padded one. -/
theorem C5_cex_stripped_padding_changes_decode :
    (from_header (stripTrailingEq (to_header ctxC5)) emptyCtx =
      from_header (to_header ctxC5) emptyCtx) = False :=
  eq_false (by decide)

/-- C9 (amended): the custom entries written by
SessionInformation.add_to_context, whose keys all start with the root
prefix and so contain slashes, are emitted by to_header (seven entries in
to_list including the topic) but dropped by from_header — the decoded
context keeps the topic and has no custom entries at all.  The general
claim fails at other slash-bearing keys: a key whose sectioned match
fails, such as a/, survives as a custom key with its slash. -/
theorem C9_slash_keys_dropped :
    (to_list ctxC9).length = 7
    ∧ from_header (to_header ctxC9) emptyCtx =
        { topic := some "t1", custom := Option.none }
    ∧ from_header (to_header (set_custom_info emptyCtx "a/" (PyVal.vStr "1")))
        emptyCtx =
        { topic := Option.none, custom := some [("a/", PyVal.vStr "1")] } := by
  decide

/-- C9 counterexample: the custom entry with slash-bearing key topic/name
is not dropped by from_header — its encoded line matches the sectioned
pattern with section topic, and the decoded context records its value as
the topic, contradicting the claim that every slash-bearing custom entry
is recorded neither as topic nor as a custom key. -/
theorem C9_cex_topic_name_key_restored_as_topic :
    ((from_header (to_header (set_custom_info emptyCtx "topic/name"
      (PyVal.vStr "v"))) emptyCtx).topic = Option.none) = False :=
  eq_false (by decide)

/-! ## The to_map postcondition, piecewise -/

theorem topicKey_append : ("ourritual/topic/name" : String) =
    "ourritual/" ++ "topic/name" := by decide

theorem to_list_topic (s : Ctx)
    (hcol : "topic/name" ∉ (s.custom.getD []).map Prod.fst) :
    dictGet (to_list s) "ourritual/topic/name" = s.topic := by
  obtain ⟨topic, custom⟩ := s
  cases custom with
  | none =>
    cases topic with
    | none => rfl
    | some t => simp [to_list, dictGet]
  | some cs =>
    have hcol' : "topic/name" ∉ cs.map Prod.fst := by simpa using hcol
    have hpres : ∀ p ∈ cs, p.2 ≠ PyVal.vNone →
        "ourritual/" ++ p.1 ≠ "ourritual/topic/name" := by
      intro p hp _ hkey
      apply hcol'
      have hp1 : p.1 = "topic/name" :=
        strAppend_cancel_left (hkey.trans topicKey_append)
      rw [← hp1]
      exact List.mem_map_of_mem Prod.fst hp
    cases topic with
    | none =>
      show dictGet (cs.foldl custStep []) "ourritual/topic/name" = Option.none
      rw [custFold_preserve cs [] _ hpres]
      rfl
    | some t =>
      show dictGet (cs.foldl custStep [("ourritual/topic/name", t)])
        "ourritual/topic/name" = some t
      rw [custFold_preserve cs _ _ hpres]
      simp [dictGet]

theorem to_list_custom_hit (s : Ctx)
    (hnd : ((s.custom.getD []).map Prod.fst).Nodup) (k : String) (v : PyVal)
    (hm : (k, v) ∈ s.custom.getD []) (hv : v ≠ PyVal.vNone) :
    dictGet (to_list s) ("ourritual/" ++ k) = some (pyStr v) := by
  obtain ⟨topic, custom⟩ := s
  cases custom with
  | none => simp at hm
  | some cs =>
    have hnd' : (cs.map Prod.fst).Nodup := by simpa using hnd
    have hm' : (k, v) ∈ cs := by simpa using hm
    cases topic with
    | none => exact custFold_hit cs [] k v hnd' hm' hv
    | some t => exact custFold_hit cs [("ourritual/topic/name", t)] k v hnd' hm' hv

theorem to_list_custom_none_excluded (s : Ctx)
    (hnd : ((s.custom.getD []).map Prod.fst).Nodup)
    (hcol : "topic/name" ∉ (s.custom.getD []).map Prod.fst) (k : String)
    (hm : (k, PyVal.vNone) ∈ s.custom.getD []) :
    dictGet (to_list s) ("ourritual/" ++ k) = Option.none := by
  obtain ⟨topic, custom⟩ := s
  cases custom with
  | none => simp at hm
  | some cs =>
    have hnd' : (cs.map Prod.fst).Nodup := by simpa using hnd
    have hcol' : "topic/name" ∉ cs.map Prod.fst := by simpa using hcol
    have hm' : (k, PyVal.vNone) ∈ cs := by simpa using hm
    have hkmem : k ∈ cs.map Prod.fst := by
      show k ∈ _
      exact List.mem_map_of_mem Prod.fst hm'
    have hkne : k ≠ "topic/name" := fun he => hcol' (he ▸ hkmem)
    have hpres : ∀ p ∈ cs, p.2 ≠ PyVal.vNone →
        "ourritual/" ++ p.1 ≠ "ourritual/" ++ k := by
      intro p hp hpv hkey
      have hp1 : p.1 = k := strAppend_cancel_left hkey
      have hpmem : (k, p.2) ∈ cs := by
        rw [← hp1]
        simpa using hp
      exact hpv (nodupKeys_eq hnd' hpmem hm')
    cases topic with
    | none =>
      show dictGet (cs.foldl custStep []) ("ourritual/" ++ k) = Option.none
      rw [custFold_preserve cs [] _ hpres]
      rfl
    | some t =>
      show dictGet (cs.foldl custStep [("ourritual/topic/name", t)])
        ("ourritual/" ++ k) = Option.none
      rw [custFold_preserve cs _ _ hpres]
      show (if "ourritual/topic/name" = "ourritual/" ++ k then some t
        else Option.none) = Option.none
      rw [if_neg]
      intro he
      exact hkne (strAppend_cancel_left (topicKey_append ▸ he)).symm

/-- C6 (amended): to_map postcondition for every store state whose custom
keys are unique (a Python dict invariant) and do not contain the literal
key topic/name (which would collide with the reserved topic entry): the
flattened map binds the reserved key to exactly the topic (absent when the
topic is unset), binds the root-prefixed key of every custom entry with a
non-None value to its stringified value, and carries no entry at all for a
custom entry whose value is None. -/
theorem C6_to_map_postcondition (s : Ctx)
    (hnd : ((s.custom.getD []).map Prod.fst).Nodup)
    (hcol : "topic/name" ∉ (s.custom.getD []).map Prod.fst) :
    dictGet (to_list s) "ourritual/topic/name" = s.topic
    ∧ (∀ k v, (k, v) ∈ s.custom.getD [] → v ≠ PyVal.vNone →
        dictGet (to_list s) ("ourritual/" ++ k) = some (pyStr v))
    ∧ (∀ k, (k, PyVal.vNone) ∈ s.custom.getD [] →
        dictGet (to_list s) ("ourritual/" ++ k) = Option.none) :=
  ⟨to_list_topic s hcol,
    fun k v hm hv => to_list_custom_hit s hnd k v hm hv,
    fun k hm => to_list_custom_none_excluded s hnd hcol k hm⟩

/-- C6 witness: the postcondition instantiated at the state with topic t,
custom entry n maps-to int 123 and custom entry z maps-to None. -/
theorem C6_witness :
    dictGet (to_list ctxC6wit) "ourritual/topic/name" = ctxC6wit.topic
    ∧ (∀ k v, (k, v) ∈ ctxC6wit.custom.getD [] → v ≠ PyVal.vNone →
        dictGet (to_list ctxC6wit) ("ourritual/" ++ k) = some (pyStr v))
    ∧ (∀ k, (k, PyVal.vNone) ∈ ctxC6wit.custom.getD [] →
        dictGet (to_list ctxC6wit) ("ourritual/" ++ k) = Option.none) :=
  C6_to_map_postcondition ctxC6wit (by decide) (by decide)

/-- C6 counterexample: in the state with topic t and the custom entry
topic/name maps-to x, the flattened map binds the reserved key to x, not
to the topic t, because the custom loop overwrites the topic entry. -/
theorem C6_cex_topic_key_collision :
    (dictGet (to_list ctxC6cex) "ourritual/topic/name" = some "t") = False :=
  eq_false (by decide)

/-- C7 (amended): the Context Store offers no clear operation — no single
store operation (set_topic_info, set_custom_info or from_header) takes a
state with a topic and a custom dictionary set to the empty state in
which both context variables are None. -/
theorem C7_no_single_op_clears (op : COp) (s : Ctx) (t : String)
    (d : List (String × PyVal)) (ht : s.topic = some t)
    (hc : s.custom = some d) : applyOp op s ≠ emptyCtx := by
  intro he
  cases op with
  | opSetTopicInfo t2 =>
    have h2 := congrArg Ctx.custom he
    rw [applyOp] at h2
    simp [set_topic_info, hc, emptyCtx] at h2
  | opSetCustomInfo k v =>
    have h2 := congrArg Ctx.custom he
    rw [applyOp] at h2
    simp [set_custom_info, emptyCtx] at h2
  | opFromHeader h =>
    obtain ⟨u, hu⟩ := from_header_topic_some h s t ht
    have h2 := congrArg Ctx.topic he
    rw [applyOp] at h2
    rw [hu] at h2
    simp [emptyCtx] at h2

/-- C7 witness: even set_topic_info None does not clear a state that
holds a custom entry. -/
theorem C7_witness :
    (applyOp (COp.opSetTopicInfo Option.none) ctxC7 = emptyCtx) = False :=
  eq_false
    (C7_no_single_op_clears (COp.opSetTopicInfo Option.none) ctxC7 "t"
      [("a", PyVal.vStr "1")] rfl rfl)

/-- C7 counterexample: there is no store operation that, from every state,
leaves the topic absent, the custom dictionary empty or absent, and
to_map empty — OurRitualContext has no clear(). -/
theorem C7_cex_no_clear_operation :
    (∃ op : COp, ∀ s : Ctx,
      (applyOp op s).topic = Option.none
      ∧ (applyOp op s).custom.getD [] = []
      ∧ to_list (applyOp op s) = []) = False := by
  apply eq_false
  rintro ⟨op, hop⟩
  obtain ⟨htop, hcust, _⟩ := hop ctxC7
  cases op with
  | opSetTopicInfo t2 =>
    rw [applyOp] at hcust
    simp [set_topic_info, ctxC7] at hcust
  | opSetCustomInfo k v =>
    rw [applyOp] at htop
    simp [set_custom_info, ctxC7] at htop
  | opFromHeader h =>
    obtain ⟨u, hu⟩ := from_header_topic_some h ctxC7 "t" rfl
    rw [applyOp] at htop
    rw [hu] at htop
    cases htop

/-- C10: reserved key ourritual/test dropped on workflow-engine inbound
restore — for every decoded header dictionary with unique keys installed
into a fresh unit, the restored context never holds a custom entry under
the key test, while the reserved topic key is installed as the topic and
every other root-prefixed entry is installed as custom info under its
stripped key. -/
theorem C10_reserved_test_key_dropped (d : List (String × String))
    (hnd : (d.map Prod.fst).Nodup) :
    dictGet ((restore_context_from_dict d emptyCtx).custom.getD []) "test" =
      Option.none
    ∧ (∀ v, ("ourritual/topic/name", v) ∈ d →
        (restore_context_from_dict d emptyCtx).topic = some v)
    ∧ (∀ k v, ("ourritual/" ++ k, v) ∈ d → k ≠ "test" → k ≠ "topic/name" →
        dictGet ((restore_context_from_dict d emptyCtx).custom.getD []) k =
          some (PyVal.vStr v)) := by
  refine ⟨?_, fun v hm => restoreFold_topic_hit d emptyCtx v hnd hm,
    fun k v hm h1 h2 => restoreFold_custom_hit d emptyCtx k v hnd hm h1 h2⟩
  rw [restore_context_from_dict, restoreFold_custom_test]
  rfl

/-- C10 witness: the restore postcondition instantiated at a dictionary
holding the topic key, the reserved ourritual/test key, an ordinary
custom key and a foreign key. -/
theorem C10_witness :
    dictGet ((restore_context_from_dict dC10 emptyCtx).custom.getD [])
      "test" = Option.none
    ∧ (∀ v, ("ourritual/topic/name", v) ∈ dC10 →
        (restore_context_from_dict dC10 emptyCtx).topic = some v)
    ∧ (∀ k v, ("ourritual/" ++ k, v) ∈ dC10 → k ≠ "test" → k ≠ "topic/name" →
        dictGet ((restore_context_from_dict dC10 emptyCtx).custom.getD []) k =
          some (PyVal.vStr v)) :=
  C10_reserved_test_key_dropped dC10 (by decide)

/-- C3 (amended): the message-consumer wrapper performs no reset — the
wrapped callback installs the context carried by the message attributes
with from_header and then returns (or re-raises) the handler outcome with
the Context Store left exactly as the handler left it, on every exit path
and with or without a tracer; for a handler that does not touch the
store, the installed context persists after the wrapper returns, so the
next message on the same worker starts from it rather than from an empty
store. -/
theorem C3_no_reset_after_callback (tracerSet : Bool)
    (attrs : List (String × String)) (f : Ctx → Ctx × Outcome Nat) (s : Ctx)
    (hf : ∀ c, (f c).1 = c) :
    (wrapped_callback tracerSet attrs f s).1 = installCtx attrs s
    ∧ (wrapped_callback tracerSet attrs f s).2 = (f (installCtx attrs s)).2 := by
  have fold : (if (dictGet attrs OURRITUAL_CONTEXT_HEADER).getD "" ≠ ""
      then from_header ((dictGet attrs OURRITUAL_CONTEXT_HEADER).getD "") s
      else s) = installCtx attrs s := rfl
  have hwc : wrapped_callback tracerSet attrs f s = f (installCtx attrs s) := by
    cases tracerSet with
    | false => rfl
    | true =>
      simp only [wrapped_callback]
      rcases hfs : f (installCtx attrs s) with ⟨s2, out⟩
      rw [fold, hfs]
      cases out <;> rfl
  rw [hwc]
  exact ⟨hf _, rfl⟩

/-- C3 witness: a message carrying a context header with topic t1,
handled with a tracer by a handler that returns 0 without touching the
store. -/
theorem C3_witness :
    (wrapped_callback true attrsC3
        (fun c => (c, Outcome.ok (0 : Nat))) emptyCtx).1 =
      installCtx attrsC3 emptyCtx
    ∧ (wrapped_callback true attrsC3
        (fun c => (c, Outcome.ok (0 : Nat))) emptyCtx).2 =
      ((fun c => (c, Outcome.ok (0 : Nat))) (installCtx attrsC3 emptyCtx)).2 :=
  C3_no_reset_after_callback true attrsC3
    (fun c => (c, Outcome.ok (0 : Nat))) emptyCtx (fun _ => rfl)

/-- C3 counterexample: after the wrapper handles a message whose header
carries topic t1 (handler returns normally), the unit's Context Store is
not reset to empty — the topic t1 is still installed when the wrapper
returns. -/
theorem C3_cex_store_not_reset :
    ((wrapped_callback true attrsC3
        (fun c => (c, Outcome.ok (0 : Nat))) emptyCtx).1 = emptyCtx) = False :=
  eq_false (by decide)

/-- C8 (amended): latest-wins outbound merge holds whenever the caller's
current context snapshot is non-empty — for each of start_activity,
start_local_activity and start_child_workflow, the header map passed
onward binds the context header key to the fresh snapshot, overwriting
any pre-existing value, and preserves every other existing entry.  (When
the snapshot is empty no context header is produced and a pre-existing
stale value is left in place, which is what the counterexample shows.) -/
theorem C8_latest_wins_merge (s : Ctx) (existing : List (String × Payload))
    (hne : to_list s ≠ []) :
    (dictGet (start_activity_headers s existing) CONTEXT_HEADER_KEY =
        some (to_list s)
      ∧ ∀ k, k ≠ CONTEXT_HEADER_KEY →
          dictGet (start_activity_headers s existing) k = dictGet existing k)
    ∧ (dictGet (start_local_activity_headers s existing) CONTEXT_HEADER_KEY =
        some (to_list s)
      ∧ ∀ k, k ≠ CONTEXT_HEADER_KEY →
          dictGet (start_local_activity_headers s existing) k =
            dictGet existing k)
    ∧ (dictGet (start_child_workflow_headers s existing) CONTEXT_HEADER_KEY =
        some (to_list s)
      ∧ ∀ k, k ≠ CONTEXT_HEADER_KEY →
          dictGet (start_child_workflow_headers s existing) k =
            dictGet existing k) :=
  ⟨merge_headers_spec s existing hne, merge_headers_spec s existing hne,
    merge_headers_spec s existing hne⟩

/-- C8 witness: the merge instantiated at a caller with topic t1 and
existing headers that already hold a stale context payload next to an
unrelated entry. -/
theorem C8_witness :
    (dictGet (start_activity_headers ctxC8 existingC8) CONTEXT_HEADER_KEY =
        some (to_list ctxC8)
      ∧ ∀ k, k ≠ CONTEXT_HEADER_KEY →
          dictGet (start_activity_headers ctxC8 existingC8) k =
            dictGet existingC8 k)
    ∧ (dictGet (start_local_activity_headers ctxC8 existingC8)
        CONTEXT_HEADER_KEY = some (to_list ctxC8)
      ∧ ∀ k, k ≠ CONTEXT_HEADER_KEY →
          dictGet (start_local_activity_headers ctxC8 existingC8) k =
            dictGet existingC8 k)
    ∧ (dictGet (start_child_workflow_headers ctxC8 existingC8)
        CONTEXT_HEADER_KEY = some (to_list ctxC8)
      ∧ ∀ k, k ≠ CONTEXT_HEADER_KEY →
          dictGet (start_child_workflow_headers ctxC8 existingC8) k =
            dictGet existingC8 k) :=
  C8_latest_wins_merge ctxC8 existingC8 (by decide)

/-- C8 counterexample: when the caller's current context is empty, an
outbound call whose existing headers already contain the context header
key does not get the key rebound to the freshly captured (empty)
snapshot — the stale pre-existing payload is passed on instead. -/
theorem C8_cex_stale_header_kept_when_context_empty :
    (dictGet (start_activity_headers emptyCtx existingC8) CONTEXT_HEADER_KEY =
      some (to_list emptyCtx)) = False :=
  eq_false (by decide)
